import Mathlib

/-!
Verification of the query-routing / retrieval-fusion / technical-signal core of
the `sprint2` crypto-assistant repository, as a shallow embedding in Lean 4.

Conventions used throughout:
* Python floats are modelled as exact rationals `ℚ`; where IEEE special values
  (NaN, plus or minus infinity) are observable in the source, the extended type
  `XFloat` is used, whose arithmetic follows the IEEE rules for the operations
  the source performs.
* Python exceptions are modelled with `Except PyError`; a `try/except` block is
  a `match` on the `Except` value.
* External collaborators (the OpenAI chat models, the Chroma retriever, HTTP
  fetches) are oracle parameters: total functions, or `Except`-valued functions
  when the source can observe them raising.
-/

namespace Sprint2

/-- A Python exception value (only the class and message are observable). -/
inductive PyError where
  | typeError (msg : String)
  | valueError (msg : String)
  | indexError (msg : String)
  | runtime (msg : String)
deriving DecidableEq, Repr

/-! ## Python string ordering

CPython compares `str` values lexicographically by Unicode code point.  This is
the order used by `list.sort` on `(score, key)` tuples in
`reciprocal_rank_fusion` (src/knowledge_base/retriever.py). -/

/-- Code-point lexicographic strict order on character lists, as CPython
compares strings. -/
def pyLtChars : List Char → List Char → Bool
  | [], [] => false
  | [], _ :: _ => true
  | _ :: _, [] => false
  | a :: as, b :: bs => if a < b then true else if b < a then false else pyLtChars as bs

/-- Strict code-point order on strings (CPython `<` on `str`). -/
def pyStrLt (s t : String) : Bool := pyLtChars s.data t.data

/-! ## Documents and reciprocal rank fusion (src/knowledge_base/retriever.py) -/

/-- A LangChain document as observed by the fusion code: its text and its
metadata source entry. -/
structure Document where
  page_content : String
  source : String
deriving DecidableEq, Repr

/-- One step of the accumulation on a `defaultdict(float)`: an existing key
keeps its position and accumulates, a missing key is appended at the end with
value `v` (the default `0.0` plus `v`).  Python dicts preserve insertion
order, modelled by the association list. -/
def updateScore : List (String × ℚ) → String → ℚ → List (String × ℚ)
  | [], key, v => [(key, v)]
  | (k₀, s) :: rest, key, v =>
    if k₀ = key then (k₀, s + v) :: rest else (k₀, s) :: updateScore rest key v

/-- Accumulate one ranked result list into `doc_scores`: for the document at
0-based `rank`, add `1.0 / (rank + k)` keyed by `doc.page_content`. -/
def addListScores (k : ℕ) (scores : List (String × ℚ)) (results : List Document) :
    List (String × ℚ) :=
  results.enum.foldl
    (fun sc rd => updateScore sc rd.2.page_content (1 / ((rd.1 : ℚ) + (k : ℚ)))) scores

/-- The `doc_scores` dictionary after processing every result list. -/
def docScores (results_list : List (List Document)) (k : ℕ) : List (String × ℚ) :=
  results_list.foldl (addListScores k) []

/-- The order produced by `scored_results.sort(reverse=True)` on
`(score, key)` tuples: descending by score, and for equal scores descending by
the key string (CPython tuple comparison is lexicographic and its string
comparison is by code point).  `rrfSortRel x y` states that `x` may be placed
before `y`. -/
def rrfSortRel (x y : ℚ × String) : Prop :=
  y.1 < x.1 ∨ (y.1 = x.1 ∧ pyStrLt x.2 y.2 = false)

instance : DecidableRel rrfSortRel := fun x y => by
  unfold rrfSortRel; infer_instance

/-- The `content_to_doc` dictionary built by iterating every list in order:
last write wins, so the value for `key` is the last document with that content
in iteration order. -/
def content_to_doc (results_list : List (List Document)) (key : String) :
    Option Document :=
  results_list.flatten.reverse.find? (fun d => d.page_content = key)

/-- `reciprocal_rank_fusion` from src/knowledge_base/retriever.py: accumulate
RRF scores keyed by content, sort the `(score, key)` pairs with
`sort(reverse=True)` (a stable sort; modelled by `insertionSort`, which is
stable — the choice is irrelevant because keys are distinct, making the order
total and antisymmetric on the sorted elements), then map keys back to
documents through `content_to_doc`. -/
def reciprocal_rank_fusion (results_list : List (List Document)) (k : ℕ := 60) :
    List Document :=
  let scored_results := (docScores results_list k).map (fun p => (p.2, p.1))
  let sorted := List.insertionSort rrfSortRel scored_results
  sorted.filterMap (fun p => content_to_doc results_list p.2)

/-- The cumulative RRF score of a content string, written independently of the
dictionary bookkeeping: the sum of `1 / (rank + k)` over every occurrence of
that content in the input lists (the quantity named by the specification). -/
def rrfScore (results_list : List (List Document)) (k : ℕ) (c : String) : ℚ :=
  (results_list.map (fun results =>
    (results.enum.map (fun rd =>
      if rd.2.page_content = c then 1 / ((rd.1 : ℚ) + (k : ℚ)) else 0)).sum)).sum

/-- The score of a content string as read off the association list (a
`defaultdict` read: `0` when absent).  With no duplicate keys this is the
stored value. -/
def lookupScore (sc : List (String × ℚ)) (c : String) : ℚ :=
  (sc.map (fun p => if p.1 = c then p.2 else 0)).sum

/-- All content strings of the input, in first-to-last iteration order. -/
def allContents (results_list : List (List Document)) : List String :=
  results_list.flatten.map Document.page_content

/-- Position of the first occurrence of a content string across the input
lists (the first-seen order the specification appeals to). -/
def firstSeenIndex (results_list : List (List Document)) (c : String) : ℕ :=
  (allContents results_list).indexOf c

/-! ## Retrieval with fusion (src/knowledge_base/retriever.py) -/

/-- The external collaborators of `get_relevant_documents_with_fusion`:
variation generation (an LLM chain, may raise) and the retriever.
`get_retriever` is `none` when connecting to the Chroma store failed (the
source then returns `None`); otherwise invoking the retriever on a query may
itself raise. -/
structure RetrievalEnv where
  generate_query_variations : String → Except PyError (List String)
  get_retriever : Option (String → Except PyError (List Document))

/-- The sequential per-variant retrieval loop: the first exception aborts the
loop and propagates. -/
def invokeAll (retriever : String → Except PyError (List Document)) :
    List String → Except PyError (List (List Document))
  | [] => .ok []
  | v :: rest =>
    match retriever v with
    | .error e => .error e
    | .ok docs =>
      match invokeAll retriever rest with
      | .error e => .error e
      | .ok others => .ok (docs :: others)

/-- `get_relevant_documents_with_fusion`: one `try/except` wraps variant
generation, retriever construction (requesting `2 * top_k` candidates — a
property of the oracle), the sequential per-variant retrieval loop, fusion and
truncation; the `except` arm returns the empty list. -/
def get_relevant_documents_with_fusion (env : RetrievalEnv) (query : String)
    (top_k : ℕ := 3) : List Document :=
  match env.generate_query_variations query with
  | .error _ => []
  | .ok query_variations =>
    match env.get_retriever with
    | none => []
    | some retriever =>
      match invokeAll retriever query_variations with
      | .error _ => []
      | .ok all_results => (reciprocal_rank_fusion all_results 60).take top_k

/-! ## Query classifier (src/utils/classifier.py) -/

/-- Python `str.strip()`: leading and trailing whitespace removed. -/
def pyStrip (s : String) : String :=
  ⟨((s.data.dropWhile Char.isWhitespace).reverse.dropWhile Char.isWhitespace).reverse⟩

/-- Python `str.lower()` (ASCII case suffices for the claims). -/
def pyLower (s : String) : String := ⟨s.data.map Char.toLower⟩

/-- Number of distinct characters: `len(set(text))`. -/
def distinctCharCount (s : String) : ℕ := s.data.dedup.length

/-- The delegated text-classification capability: the prompted chat model
composed with the string output parser, modelled as a total oracle. -/
structure ClassifierEnv where
  llm : String → String

def valid_categories : List String := ["knowledge_base", "tool_call", "direct"]

/-- `classify_query`: early validation returns `direct` for empty/whitespace
input, for at most two distinct characters of the lowercased text, or for a
stripped length below five, before the LLM chain is built or invoked;
otherwise the normalized LLM output is validated against the three categories
with `direct` as fallback. -/
def classify_query (env : ClassifierEnv) (query_text : String) : String :=
  if pyStrip query_text = "" then "direct"
  else if distinctCharCount (pyLower query_text) ≤ 2 ∨ (pyStrip query_text).length < 5 then
    "direct"
  else
    let result := pyLower (pyStrip (env.llm query_text))
    if result ∈ valid_categories then result else "direct"

/-! ## IEEE-style extended floats

The indicator pipeline in src/utils/tools.py works on pandas series of
float64 values.  The quantities the claims are about are either exact
(sums of exact zeros, a division of a positive value by zero, arithmetic with
the resulting infinity) or symbolic, so rationals extended with NaN and the
two infinities model them faithfully. -/

inductive XFloat where
  | nan
  | inf
  | ninf
  | val (q : ℚ)
deriving DecidableEq, Repr

/-- IEEE addition restricted to the values above. -/
def XFloat.add : XFloat → XFloat → XFloat
  | .nan, _ => .nan
  | _, .nan => .nan
  | .inf, .ninf => .nan
  | .ninf, .inf => .nan
  | .inf, _ => .inf
  | _, .inf => .inf
  | .ninf, _ => .ninf
  | _, .ninf => .ninf
  | .val a, .val b => .val (a + b)

def XFloat.neg : XFloat → XFloat
  | .nan => .nan
  | .inf => .ninf
  | .ninf => .inf
  | .val a => .val (-a)

def XFloat.sub (x y : XFloat) : XFloat := x.add y.neg

/-- IEEE multiplication (numpy semantics; `inf * 0` is NaN). -/
def XFloat.mul : XFloat → XFloat → XFloat
  | .nan, _ => .nan
  | _, .nan => .nan
  | .inf, .inf => .inf
  | .inf, .ninf => .ninf
  | .ninf, .inf => .ninf
  | .ninf, .ninf => .inf
  | .inf, .val b => if b = 0 then .nan else if 0 < b then .inf else .ninf
  | .val a, .inf => if a = 0 then .nan else if 0 < a then .inf else .ninf
  | .ninf, .val b => if b = 0 then .nan else if 0 < b then .ninf else .inf
  | .val a, .ninf => if a = 0 then .nan else if 0 < a then .ninf else .inf
  | .val a, .val b => .val (a * b)

/-- IEEE division as numpy/pandas perform it on series (`x / 0` is `±inf` for
`x ≠ 0` and NaN for `x = 0`; a finite value over an infinity is zero). -/
def XFloat.div : XFloat → XFloat → XFloat
  | .nan, _ => .nan
  | _, .nan => .nan
  | .inf, .inf => .nan
  | .inf, .ninf => .nan
  | .ninf, .inf => .nan
  | .ninf, .ninf => .nan
  | .inf, .val b => if 0 ≤ b then .inf else .ninf
  | .ninf, .val b => if 0 ≤ b then .ninf else .inf
  | .val _, .inf => .val 0
  | .val _, .ninf => .val 0
  | .val a, .val b =>
    if b = 0 then (if a = 0 then .nan else if 0 < a then .inf else .ninf)
    else .val (a / b)

/-- IEEE `<`: NaN is incomparable. -/
def XFloat.lt : XFloat → XFloat → Bool
  | .nan, _ => false
  | _, .nan => false
  | .inf, _ => false
  | .ninf, .ninf => false
  | .ninf, _ => true
  | .val _, .inf => true
  | .val _, .ninf => false
  | .val a, .val b => decide (a < b)

/-- IEEE `≤`: NaN is incomparable. -/
def XFloat.le : XFloat → XFloat → Bool
  | .nan, _ => false
  | _, .nan => false
  | .ninf, _ => true
  | .inf, .inf => true
  | .inf, _ => false
  | .val _, .inf => true
  | .val _, .ninf => false
  | .val a, .val b => decide (a ≤ b)

/-- `not pd.isna(x)` on a float64 cell: everything but NaN. -/
def notna : XFloat → Bool
  | .nan => false
  | _ => true

/-! ## RSI (src/utils/tools.py, calculate_rsi) -/

/-- `prices.diff()` without its leading NaN: the consecutive differences. -/
def diffs (prices : List ℚ) : List ℚ :=
  prices.zipWith (fun a b => b - a) prices.tail

/-- `np.where(delta > 0, delta, 0)`: the leading NaN of `diff()` compares
false against 0, so the first entry becomes an exact 0, as does every
non-positive delta. -/
def gains (prices : List ℚ) : List ℚ :=
  if prices = [] then [] else 0 :: (diffs prices).map (fun d => if 0 < d then d else 0)

/-- `np.where(delta < 0, -delta, 0)` with the same NaN-to-0 behaviour. -/
def losses (prices : List ℚ) : List ℚ :=
  if prices = [] then [] else 0 :: (diffs prices).map (fun d => if d < 0 then -d else 0)

/-- `Series.rolling(window=w, min_periods=w).mean()` at index `i` over a
series with no NaN entries: NaN during warm-up, afterwards the mean of the
`w` entries ending at `i`. -/
def rollingMeanAt (xs : List ℚ) (w : ℕ) (i : ℕ) : XFloat :=
  if i + 1 < w then XFloat.nan
  else XFloat.val ((((xs.take (i + 1)).drop (i + 1 - w)).sum) / (w : ℚ))

def avgGainAt (prices : List ℚ) (period i : ℕ) : XFloat :=
  rollingMeanAt (gains prices) period i

def avgLossAt (prices : List ℚ) (period i : ℕ) : XFloat :=
  rollingMeanAt (losses prices) period i

/-- `rsi = 100 - (100 / (1 + rs))`, `rs = avg_gain / avg_loss`, at index `i`. -/
def rsiAt (prices : List ℚ) (period i : ℕ) : XFloat :=
  (XFloat.val 100).sub
    ((XFloat.val 100).div
      ((XFloat.val 1).add ((avgGainAt prices period i).div (avgLossAt prices period i))))

/-- `calculate_rsi` from src/utils/tools.py as the full result series. -/
def calculate_rsi (prices : List ℚ) (period : ℕ := 14) : List XFloat :=
  (List.range prices.length).map (rsiAt prices period)

/-! ## Period price change (src/utils/tools.py, calculate_price_change) -/

/-- `calculate_price_change`: percent change of `iloc[-1]` against `iloc[-24]`
and against `iloc[-168]`, `None` when the series is shorter than 24
(respectively 168) points; `iloc[-1]` on an empty series raises. -/
def calculate_price_change (prices : List ℚ) :
    Except PyError (Option ℚ × Option ℚ) :=
  match prices.getLast? with
  | none => .error (.indexError "single positional indexer is out-of-bounds")
  | some last_price =>
    .ok
      (if 24 ≤ prices.length then
        some ((last_price / prices.getD (prices.length - 24) 0 - 1) * 100)
       else none,
       if 168 ≤ prices.length then
        some ((last_price / prices.getD (prices.length - 168) 0 - 1) * 100)
       else none)

/-! ## Signal engine (src/utils/tools.py, get_crypto_signals)

The rule and fallback blocks read only the latest and previous indicator
values of the dataframe.  `Snapshot` captures exactly those reads; the blocks
are embedded as functions of it.  The `description` entries of the emitted
dicts are formatted narrative strings none of the claims mention; they are
omitted from the embedding. -/

inductive SignalType where
  | BUY
  | SELL
  | BULLISH_TREND
  | BEARISH_TREND
  | NEUTRAL
deriving DecidableEq, Repr

inductive Strength where
  | WEAK
  | MEDIUM
  | STRONG
deriving DecidableEq, Repr

structure Signal where
  type : SignalType
  strength : Strength
  indicator : String
deriving DecidableEq, Repr

/-- The dataframe cells the signal blocks read: `latest_values` fields,
`iloc[-2]` fields, and the volume columns when present.  `current_price` and
`prev_price` are raw price floats and always present (the block is only
reached with at least two rows; with fewer, `iloc[-2]` raises inside the
enclosing `try` and no report is produced). -/
structure Snapshot where
  current_price : ℚ
  prev_price : ℚ
  sma20 : XFloat
  sma50 : XFloat
  prev_sma20 : XFloat
  prev_sma50 : XFloat
  rsi : XFloat
  prev_rsi : XFloat
  macd : XFloat
  macd_signal : XFloat
  macd_histogram : XFloat
  prev_macd : XFloat
  prev_macd_signal : XFloat
  prev_macd_histogram : XFloat
  bb_upper : XFloat
  bb_lower : XFloat
  has_volume : Bool
  volume : XFloat
  volume_sma20 : XFloat
deriving DecidableEq, Repr

/-- SMA crossover block. -/
def smaSignals (s : Snapshot) : List Signal :=
  if notna s.sma20 && notna s.sma50 then
    if XFloat.lt s.sma50 s.sma20 && XFloat.le s.prev_sma20 s.prev_sma50 then
      [⟨.BUY, .STRONG, "SMA Crossover"⟩]
    else if XFloat.lt s.sma20 s.sma50 && XFloat.le s.prev_sma50 s.prev_sma20 then
      [⟨.SELL, .STRONG, "SMA Crossover"⟩]
    else []
  else []

/-- RSI block. -/
def rsiSignals (s : Snapshot) : List Signal :=
  if notna s.rsi then
    if XFloat.lt s.rsi (.val 30) then [⟨.BUY, .MEDIUM, "RSI"⟩]
    else if XFloat.lt s.rsi (.val 40) && XFloat.lt s.prev_rsi (.val 30) then
      [⟨.BUY, .WEAK, "RSI"⟩]
    else if XFloat.lt (.val 70) s.rsi then [⟨.SELL, .MEDIUM, "RSI"⟩]
    else if XFloat.lt (.val 60) s.rsi && XFloat.lt (.val 70) s.prev_rsi then
      [⟨.SELL, .WEAK, "RSI"⟩]
    else []
  else []

/-- MACD block. -/
def macdSignals (s : Snapshot) : List Signal :=
  if notna s.macd && notna s.macd_signal then
    if XFloat.lt s.macd_signal s.macd && XFloat.le s.prev_macd s.prev_macd_signal then
      [⟨.BUY, .STRONG, "MACD"⟩]
    else if XFloat.lt s.macd s.macd_signal && XFloat.le s.prev_macd_signal s.prev_macd then
      [⟨.SELL, .STRONG, "MACD"⟩]
    else if notna s.macd_histogram && XFloat.lt (.val 0) s.macd &&
        XFloat.lt (.val 0) s.macd_signal && XFloat.lt (.val 0) s.macd_histogram &&
        XFloat.lt s.prev_macd_histogram s.macd_histogram then
      [⟨.BUY, .WEAK, "MACD"⟩]
    else if notna s.macd_histogram && XFloat.lt s.macd (.val 0) &&
        XFloat.lt s.macd_signal (.val 0) && XFloat.lt s.macd_histogram (.val 0) &&
        XFloat.lt s.macd_histogram s.prev_macd_histogram then
      [⟨.SELL, .WEAK, "MACD"⟩]
    else []
  else []

/-- Bollinger block. -/
def bollingerSignals (s : Snapshot) : List Signal :=
  if notna s.bb_upper && notna s.bb_lower then
    if XFloat.le (.val s.current_price) s.bb_lower then
      [⟨.BUY, .MEDIUM, "Bollinger Bands"⟩]
    else if XFloat.le s.bb_upper (.val s.current_price) then
      [⟨.SELL, .MEDIUM, "Bollinger Bands"⟩]
    else []
  else []

/-- Volume block (`vol > vol_sma * 1.5`; 1.5 is exact in binary floating
point). -/
def volumeSignals (s : Snapshot) : List Signal :=
  if s.has_volume then
    if notna s.volume && notna s.volume_sma20 &&
        XFloat.lt (s.volume_sma20.mul (.val (3 / 2))) s.volume then
      if s.prev_price < s.current_price then [⟨.BUY, .MEDIUM, "Volume"⟩]
      else if s.current_price < s.prev_price then [⟨.SELL, .MEDIUM, "Volume"⟩]
      else []
    else []
  else []

/-- All rule blocks, in source order. -/
def ruleSignals (s : Snapshot) : List Signal :=
  smaSignals s ++ rsiSignals s ++ macdSignals s ++ bollingerSignals s ++ volumeSignals s

/-- The fallback block: only entered when SMA20, SMA50, MACD and the MACD
signal line are all non-NaN. -/
def fallbackSignals (s : Snapshot) : List Signal :=
  if notna s.sma20 && notna s.sma50 && notna s.macd && notna s.macd_signal then
    if XFloat.lt s.sma50 s.sma20 && XFloat.lt s.macd_signal s.macd then
      [⟨.BULLISH_TREND, .MEDIUM, "Combined Analysis"⟩]
    else if XFloat.lt s.sma20 s.sma50 && XFloat.lt s.macd s.macd_signal then
      [⟨.BEARISH_TREND, .MEDIUM, "Combined Analysis"⟩]
    else [⟨.NEUTRAL, .WEAK, "Combined Analysis"⟩]
  else []

/-- The signal list of the report: rule blocks, then the fallback only when no
rule fired. -/
def generate_signals (s : Snapshot) : List Signal :=
  let base := ruleSignals s
  if base.isEmpty then fallbackSignals s else base

inductive Sentiment where
  | BULLISH
  | BEARISH
  | NEUTRAL
deriving DecidableEq, Repr

/-- The sentiment aggregation block: a majority vote between the counts of
`BUY`-typed and `SELL`-typed signals. -/
def overall_sentiment (signals : List Signal) : Sentiment :=
  let buy_signals := signals.filter (fun s => s.type = SignalType.BUY)
  let sell_signals := signals.filter (fun s => s.type = SignalType.SELL)
  if sell_signals.length < buy_signals.length then .BULLISH
  else if buy_signals.length < sell_signals.length then .BEARISH
  else .NEUTRAL

/-! ## Result shape of get_crypto_signals (src/utils/tools.py) -/

/-- The market-chart payload as the function reads it. -/
structure MarketChart where
  prices : List (ℚ × ℚ)
  total_volumes : List (ℚ × ℚ)
  market_caps : List (ℚ × ℚ)

/-- The three distinct runtime shapes `get_crypto_signals` can return: the raw
Python dict with an `error` key, the success-path markdown string, and the
except-path error string. -/
inductive SignalsResult where
  | errorDict (msg : String)
  | markdown (md : String)
  | errorString (msg : String)
deriving DecidableEq, Repr

def errMessage : PyError → String
  | .typeError m => m
  | .valueError m => m
  | .indexError m => m
  | .runtime m => m

/-- The error branch at the top of `format_signals_markdown`: a dict carrying
an `error` key would render as an `Error: ...` string — the early return in
`get_crypto_signals` bypasses this rendering. -/
def format_error_markdown (msg : String) : String := "Error: " ++ msg

/-- The control flow of `get_crypto_signals`: everything from the HTTP fetch
on sits in one `try`.  Empty `prices` returns the raw dict; the remaining
analysis and markdown rendering (`analyzeBody`, an oracle covering the
dataframe pipeline) either yields the markdown string or raises into the
`except` arm, which formats the error keyed by symbol. -/
def get_crypto_signals (fetch : Except PyError MarketChart)
    (analyzeBody : MarketChart → Except PyError String) (symbol : String) :
    SignalsResult :=
  match fetch with
  | .error e => .errorString ("Error analyzing " ++ symbol ++ ": " ++ errMessage e)
  | .ok data =>
    if data.prices.isEmpty then .errorDict "No price data returned."
    else
      match analyzeBody data with
      | .ok md => .markdown md
      | .error e => .errorString ("Error analyzing " ++ symbol ++ ": " ++ errMessage e)

/-! ## Router (src/chains/query_router.py, src/chains/direct_chain.py) -/

structure ChatMessage where
  role : String
  content : String
deriving DecidableEq, Repr

inductive LCMessage where
  | system (content : String)
  | human (content : String)
  | ai (content : String)
deriving DecidableEq, Repr

/-- The fixed system instruction of `process_direct_query` (its exact prose is
immaterial to the claims). -/
def directSystemPrompt : String :=
  "You are a helpful assistant specialized ONLY in cryptocurrency-related topics."

/-- The argument `process_direct_query` actually receives at runtime: the
routers fallback paths pass the bare query string where the success path
passes a list of role/content dicts. -/
inductive PyChatArg where
  | ofString (s : String)
  | ofMessages (msgs : List ChatMessage)
deriving DecidableEq, Repr

/-- The message-conversion loop of `process_direct_query`: `user` rows become
human messages, `assistant` rows AI messages, other roles are skipped. -/
def buildChat (msgs : List ChatMessage) : List LCMessage :=
  LCMessage.system directSystemPrompt ::
    msgs.filterMap (fun m =>
      if m.role = "user" then some (.human m.content)
      else if m.role = "assistant" then some (.ai m.content)
      else none)

/-- `process_direct_query` from src/chains/direct_chain.py.  Iterating a
Python `str` yields its characters, and subscripting a character (itself a
`str`) with the key `role` raises `TypeError: string indices must be
integers` before any model call; the empty string iterates zero times and
reaches the model with only the system message. -/
def process_direct_query (llm : List LCMessage → String) :
    PyChatArg → Except PyError String
  | .ofMessages msgs => .ok (llm (buildChat msgs))
  | .ofString s =>
    if s.isEmpty then .ok (llm [LCMessage.system directSystemPrompt])
    else .error (.typeError "string indices must be integers")

/-- The `function_called` attribution record built in `route_query`. -/
inductive FunctionCalled where
  | named (name : String) (parameters : List (String × String))
  | raw (s : String)
deriving DecidableEq, Repr

def TOOLS : List String :=
  ["get_crypto_price_gecko", "get_crypto_news_newsapi", "get_crypto_signals"]

/-- `repr` of a Python string (quoting only; escaping does not arise in the
claims). -/
def pyRepr (v : String) : String := "\x27" ++ v ++ "\x27"

def renderParams (params : List (String × String)) : String :=
  String.intercalate ", " (params.map (fun p => p.1 ++ "=" ++ pyRepr p.2))

/-- `urlparse(raw).netloc + path`: scheme stripped, query and fragment
dropped. -/
def urlNetlocPath (s : String) : String :=
  let afterScheme :=
    match s.splitOn "://" with
    | _ :: rest@(_ :: _) => String.intercalate "://" rest
    | _ => s
  ((afterScheme.splitOn "?").headD afterScheme |> fun r => (r.splitOn "#").headD r)

def basename (s : String) : String := ((s.splitOn "/").getLast?).getD s

/-- Human-readable name for a document origin, as the footer builds it. -/
def sourceName (raw : String) : String :=
  if raw.startsWith "http" then urlNetlocPath raw else basename raw

/-- `_create_attribution_footer`.  The `Source:` names pass through
`", ".join(set(names))`, whose iteration order CPython leaves unspecified;
`joinSet` is the oracle for that join. -/
def create_attribution_footer (lastDocs : List Document)
    (joinSet : List String → String) (source : Option String)
    (function_called : Option FunctionCalled) : String :=
  let sourcePart :=
    match source with
    | some s =>
      if s = "Knowledge Base" && !lastDocs.isEmpty then
        let names := lastDocs.map (fun d => sourceName d.source)
        if names.isEmpty then "" else "\n\n**Source:** " ++ joinSet names
      else ""
    | none => ""
  let functionPart :=
    match function_called with
    | some (.named name params) =>
      if params.isEmpty then "\n\n**Function Called:** `" ++ name ++ "`"
      else "\n\n**Function Called:** `" ++ name ++ "(" ++ renderParams params ++ ")`"
    | some (.raw s) => "\n\n**Function Called:** `" ++ s ++ "`"
    | none => ""
  sourcePart ++ functionPart

/-- The collaborators of `QueryRouter.route_query` and the instance state the
footer reads.  `classify` may raise (network errors in the classification
chain); the two handler methods are modelled as `Except`-valued oracles — each
catches internally, but their own fallbacks call `process_direct_query` on a
bare string and can therefore raise out of them. -/
structure RouterEnv where
  llmDirect : List LCMessage → String
  classify : String → Except PyError String
  handleKB : String → Except PyError (String × Option String)
  handleTool : String → Except PyError (String × String)
  lastToolArgs : List (String × String)
  lastDocs : List Document
  joinSet : List String → String

/-- The wrapping of `called_function` into the attribution record. -/
def wrapFunctionCalled (env : RouterEnv) (called_function : String) : FunctionCalled :=
  if called_function ∈ TOOLS then .named called_function env.lastToolArgs
  else .raw called_function

inductive RouterInput where
  | ofString (s : String)
  | ofMessages (msgs : List ChatMessage)
  | invalid

/-- `QueryRouter.route_query`.  Faithful control-flow points: the input-shape
check raises `ValueError` for other types and `IndexError` for an empty
message list; `classify_query` runs OUTSIDE the `try` block, so its
exceptions propagate; the `except` arm calls `_handle_direct_query` with the
bare `query_text` string. -/
def route_query (env : RouterEnv) (query : RouterInput) : Except PyError String := do
  let (query_text, history) ←
    match query with
    | .ofString s => pure (s, ([] : List ChatMessage))
    | .ofMessages msgs =>
      match msgs.getLast? with
      | some m => pure (m.content, msgs.dropLast)
      | none => Except.error (.indexError "list index out of range")
    | .invalid => Except.error (.valueError "Invalid input: must be string or list of messages")
  let query_type ← env.classify query_text
  let attempt : Except PyError (String × Option String × Option FunctionCalled) :=
    if query_type = "knowledge_base" then do
      let (response, source) ← env.handleKB query_text
      pure (response, source, none)
    else if query_type = "tool_call" then do
      let (response, called_function) ← env.handleTool query_text
      pure (response, none, some (wrapFunctionCalled env called_function))
    else do
      let response ← process_direct_query env.llmDirect
        (.ofMessages (history ++ [⟨"user", query_text⟩]))
      pure (response, some "General Knowledge", none)
  match attempt with
  | .ok (response, source, function_called) =>
    pure (response ++ create_attribution_footer env.lastDocs env.joinSet source function_called)
  | .error _ => do
    let response ← process_direct_query env.llmDirect (.ofString query_text)
    pure (response ++
      create_attribution_footer env.lastDocs env.joinSet
        (some "General Knowledge (Fallback)") none)


/-- Collaborator instance for the C1 failing input: classification says
tool_call and the tool-call dispatch raises (an API error). -/
def routerFailEnv : RouterEnv where
  llmDirect := fun _ => "LLM ANSWER"
  classify := fun _ => .ok "tool_call"
  handleKB := fun _ => .ok ("", none)
  handleTool := fun _ => .error (.runtime "APIConnectionError")
  lastToolArgs := []
  lastDocs := []
  joinSet := fun _ => ""

/-- Document returned by the one successful variant in the C4 counterexample. -/
def fusionFailDoc : Document := ⟨"relevant passage", "kb.txt"⟩

/-- Collaborators for the C4 counterexample: variant generation succeeds with
two variants, retrieval succeeds for the first and raises for the second. -/
def fusionFailEnv : RetrievalEnv where
  generate_query_variations := fun _ => .ok ["variant one", "variant two"]
  get_retriever :=
    some (fun v => if v = "variant one" then .ok [fusionFailDoc]
      else .error (.runtime "APIError"))

/-- A reachable snapshot (any series shorter than 50 points has SMA50 = NaN,
e.g. CoinGecko daily data for a young listing) on which no rule fires. -/
def sma50NanSnapshot : Snapshot where
  current_price := 100
  prev_price := 100
  sma20 := .val 100
  sma50 := .nan
  prev_sma20 := .nan
  prev_sma50 := .nan
  rsi := .val 50
  prev_rsi := .val 50
  macd := .val 1
  macd_signal := .val 1
  macd_histogram := .val 0
  prev_macd := .val 1
  prev_macd_signal := .val 1
  prev_macd_histogram := .val 0
  bb_upper := .nan
  bb_lower := .nan
  has_volume := false
  volume := .nan
  volume_sma20 := .nan

/-- A snapshot with all four fallback inputs available, no rule firing, and
neither trend agreement: the NEUTRAL fallback case. -/
def neutralSnapshot : Snapshot where
  current_price := 100
  prev_price := 100
  sma20 := .val 100
  sma50 := .val 100
  prev_sma20 := .val 100
  prev_sma50 := .val 100
  rsi := .val 50
  prev_rsi := .val 50
  macd := .val 0
  macd_signal := .val 0
  macd_histogram := .val 0
  prev_macd := .val 0
  prev_macd_signal := .val 0
  prev_macd_histogram := .val 0
  bb_upper := .nan
  bb_lower := .nan
  has_volume := false
  volume := .nan
  volume_sma20 := .nan

/-- First document of the C2 tie counterexample (content "alpha"). -/
def tieDocA : Document := ⟨"alpha", "a.txt"⟩

/-- Second document of the C2 tie counterexample (content "beta", seen
later but lexicographically greater). -/
def tieDocB : Document := ⟨"beta", "b.txt"⟩

/-! ## Theorems -/

theorem pyLtChars_irrefl (l : List Char) : pyLtChars l l = false := by
  induction l with
  | nil => rfl
  | cons a as ih => simp [pyLtChars, ih]

theorem pyLtChars_connex : ∀ {l₁ l₂ : List Char},
    pyLtChars l₁ l₂ = false → pyLtChars l₂ l₁ = false → l₁ = l₂ := by
  intro l₁
  induction l₁ with
  | nil =>
    intro l₂ h₁ _
    cases l₂ with
    | nil => rfl
    | cons b bs => simp [pyLtChars] at h₁
  | cons a as ih =>
    intro l₂ h₁ h₂
    cases l₂ with
    | nil => simp [pyLtChars] at h₂
    | cons b bs =>
      by_cases hab : a < b
      · simp [pyLtChars, hab] at h₁
      · by_cases hba : b < a
        · simp [pyLtChars, hba, hab] at h₂
        · have hab' : a = b := le_antisymm (not_lt.mp hba) (not_lt.mp hab)
          subst hab'
          simp only [pyLtChars, lt_irrefl, if_false] at h₁ h₂
          exact congrArg (a :: ·) (ih h₁ h₂)

theorem pyLtChars_not_lt_trans : ∀ {l₁ l₂ l₃ : List Char},
    pyLtChars l₁ l₂ = false → pyLtChars l₂ l₃ = false → pyLtChars l₁ l₃ = false := by
  intro l₁
  induction l₁ with
  | nil =>
    intro l₂ l₃ h₁ h₂
    cases l₂ with
    | nil => exact h₂
    | cons b bs => simp [pyLtChars] at h₁
  | cons a as ih =>
    intro l₂ l₃ h₁ h₂
    cases l₂ with
    | nil =>
      cases l₃ with
      | nil => exact h₁
      | cons c cs => simp [pyLtChars] at h₂
    | cons b bs =>
      cases l₃ with
      | nil => rfl
      | cons c cs =>
        by_cases hab : a < b
        · simp [pyLtChars, hab] at h₁
        · by_cases hbc : b < c
          · simp [pyLtChars, hbc] at h₂
          · by_cases hba : b < a
            · have hca : c ≤ a := le_trans (not_lt.mp hbc) (le_of_lt hba)
              simp [pyLtChars, not_lt.mpr hca, lt_of_le_of_lt (not_lt.mp hbc) hba]
            · have hab' : a = b := le_antisymm (not_lt.mp hba) (not_lt.mp hab)
              subst hab'
              by_cases hcb : c < a
              · simp only [pyLtChars, lt_irrefl, if_false] at h₂
                simp [pyLtChars, not_lt.mpr (le_of_lt hcb), hcb]
              · have hbc' : a = c := le_antisymm (not_lt.mp hcb) (not_lt.mp hbc)
                subst hbc'
                simp only [pyLtChars, lt_irrefl, if_false] at h₁ h₂ ⊢
                exact ih h₁ h₂

theorem pyLtChars_asymm : ∀ {l₁ l₂ : List Char},
    pyLtChars l₁ l₂ = true → pyLtChars l₂ l₁ = false := by
  intro l₁
  induction l₁ with
  | nil =>
    intro l₂ _
    cases l₂ with
    | nil => rfl
    | cons b bs => rfl
  | cons a as ih =>
    intro l₂ h
    cases l₂ with
    | nil => simp [pyLtChars] at h
    | cons b bs =>
      by_cases hab : a < b
      · simp [pyLtChars, hab, not_lt.mpr (le_of_lt hab)]
      · by_cases hba : b < a
        · simp [pyLtChars, hab, hba] at h
        · have hab' : a = b := le_antisymm (not_lt.mp hba) (not_lt.mp hab)
          subst hab'
          simp only [pyLtChars, lt_irrefl, if_false] at h ⊢
          exact ih h

instance : IsTotal (ℚ × String) rrfSortRel where
  total x y := by
    rcases lt_trichotomy x.1 y.1 with h | h | h
    · exact Or.inr (Or.inl h)
    · cases hxy : pyStrLt x.2 y.2 with
      | false => exact Or.inl (Or.inr ⟨h.symm, hxy⟩)
      | true => exact Or.inr (Or.inr ⟨h, pyLtChars_asymm hxy⟩)
    · exact Or.inl (Or.inl h)

instance : IsTrans (ℚ × String) rrfSortRel where
  trans x y z hxy hyz := by
    rcases hxy with h₁ | ⟨h₁, h₁'⟩ <;> rcases hyz with h₂ | ⟨h₂, h₂'⟩
    · exact Or.inl (lt_trans h₂ h₁)
    · exact Or.inl (h₂ ▸ h₁)
    · exact Or.inl (h₁ ▸ h₂)
    · exact Or.inr ⟨h₂.trans h₁, pyLtChars_not_lt_trans h₁' h₂'⟩


/-! Claim C5 -/

/-- C5: for every input whose stripped text is empty, or which has at most two
distinct characters case-insensitively, or whose stripped length is below
five, classify_query answers `direct` and does so identically for every
external classification capability, i.e. without consulting it. -/
theorem classify_query_fail_safe (env : ClassifierEnv) (q : String)
    (h : pyStrip q = "" ∨ distinctCharCount (pyLower q) ≤ 2 ∨ (pyStrip q).length < 5) :
    classify_query env q = "direct" ∧
      ∀ env' : ClassifierEnv, classify_query env q = classify_query env' q := by
  have main : ∀ e : ClassifierEnv, classify_query e q = "direct" := by
    intro e
    rcases h with h | h | h
    · simp [classify_query, h]
    · by_cases ht : pyStrip q = "" <;> simp [classify_query, ht, h]
    · by_cases ht : pyStrip q = "" <;> simp [classify_query, ht, h]
  exact ⟨main env, fun env' => (main env).trans (main env').symm⟩

/-- Witness for C5 at the concrete query "hi" and an oracle voting for
tool_call: the guard fires and the oracle is ignored. -/
theorem classify_query_fail_safe_witness :
    ((pyStrip "hi").length < 5) ∧
      classify_query ⟨fun _ => "tool_call"⟩ "hi" = "direct" := by
  have h : (pyStrip "hi").length < 5 := by decide
  exact ⟨h, (classify_query_fail_safe ⟨fun _ => "tool_call"⟩ "hi" (Or.inr (Or.inr h))).1⟩

/-! Claim C8 -/

/-- C8: for a nonempty series, calculate_price_change reports the percent
change of the last price against the 24th sample counting back from the end
(reverse index 23) when at least 24 points exist and null otherwise, and
against the 168th sample back (reverse index 167) when at least 168 points
exist and null otherwise; the sampling frequency is not consulted. -/
theorem calculate_price_change_sample_offsets (prices : List ℚ) (h : prices ≠ []) :
    calculate_price_change prices =
      .ok
        ((if 24 ≤ prices.length then
            some ((prices.getLast h / prices.reverse.getD 23 0 - 1) * 100) else none),
         (if 168 ≤ prices.length then
            some ((prices.getLast h / prices.reverse.getD 167 0 - 1) * 100) else none)) := by
  unfold calculate_price_change
  rw [List.getLast?_eq_getLast prices h]
  refine congrArg Except.ok ?_
  refine Prod.ext ?_ ?_
  · by_cases h24 : 24 ≤ prices.length
    · simp only [h24, if_true]
      have hrev : prices.reverse.getD 23 0 = prices.getD (prices.length - 24) 0 := by
        have h23 : 23 < prices.length := by omega
        have hidx : prices.length - 1 - 23 = prices.length - 24 := by omega
        simp only [List.getD, List.get?_eq_getElem?, List.getElem?_reverse (by simpa using h23), hidx]
      rw [hrev]
    · simp [h24]
  · by_cases h168 : 168 ≤ prices.length
    · simp only [h168, if_true]
      have hrev : prices.reverse.getD 167 0 = prices.getD (prices.length - 168) 0 := by
        have h167 : 167 < prices.length := by omega
        have hidx : prices.length - 1 - 167 = prices.length - 168 := by omega
        simp only [List.getD, List.get?_eq_getElem?, List.getElem?_reverse (by simpa using h167), hidx]
      rw [hrev]
    · simp [h168]

/-- Witness for C8: a 3-point series yields ok with both changes null. -/
theorem calculate_price_change_sample_offsets_witness :
    calculate_price_change [(1 : ℚ), 2, 3] = .ok (none, none) := by
  have h := calculate_price_change_sample_offsets [(1 : ℚ), 2, 3] (by simp)
  simpa using h

/-! Claim C10 -/

/-- C10: overall_sentiment is a function of the BUY and SELL signals only,
and a list with neither yields NEUTRAL, so trend-fallback signals never
influence the sentiment. -/
theorem overall_sentiment_counts_only_buy_sell (l : List Signal) :
    overall_sentiment l =
      overall_sentiment
        (l.filter (fun s => s.type = SignalType.BUY ∨ s.type = SignalType.SELL)) ∧
    ((∀ s ∈ l, s.type ≠ SignalType.BUY ∧ s.type ≠ SignalType.SELL) →
      overall_sentiment l = .NEUTRAL) := by
  constructor
  · unfold overall_sentiment
    rw [List.filter_filter, List.filter_filter]
    have hBuy :
        List.filter
          (fun a => decide (a.type = SignalType.BUY) &&
            decide (a.type = SignalType.BUY ∨ a.type = SignalType.SELL)) l =
          List.filter (fun s => decide (s.type = SignalType.BUY)) l :=
      List.filter_congr (fun a _ => by by_cases hb : a.type = SignalType.BUY <;> simp [hb])
    have hSell :
        List.filter
          (fun a => decide (a.type = SignalType.SELL) &&
            decide (a.type = SignalType.BUY ∨ a.type = SignalType.SELL)) l =
          List.filter (fun s => decide (s.type = SignalType.SELL)) l :=
      List.filter_congr (fun a _ => by by_cases hb : a.type = SignalType.SELL <;> simp [hb])
    rw [hBuy, hSell]
  · intro h
    have hB : l.filter (fun s => s.type = SignalType.BUY) = [] :=
      List.filter_eq_nil_iff.mpr (fun a ha => by simpa using (h a ha).1)
    have hS : l.filter (fun s => s.type = SignalType.SELL) = [] :=
      List.filter_eq_nil_iff.mpr (fun a ha => by simpa using (h a ha).2)
    unfold overall_sentiment
    rw [hB, hS]
    simp

/-- Witness for C10: a lone BULLISH_TREND fallback signal leaves the
sentiment NEUTRAL. -/
theorem overall_sentiment_counts_only_buy_sell_witness :
    overall_sentiment [⟨.BULLISH_TREND, .MEDIUM, "Combined Analysis"⟩] = .NEUTRAL :=
  (overall_sentiment_counts_only_buy_sell
    [⟨.BULLISH_TREND, .MEDIUM, "Combined Analysis"⟩]).2 (by decide)

/-! Claim C9 -/

/-- C9: get_crypto_signals returns three distinct runtime shapes — the raw
error dict for an empty price payload (not the markdown error rendering), the
markdown string on success, and the exception-path error string keyed by
symbol. -/
theorem get_crypto_signals_result_shapes (symbol : String) (e : PyError)
    (analyzeBody : MarketChart → Except PyError String)
    (vols caps : List (ℚ × ℚ)) (chart : MarketChart)
    (hne : chart.prices ≠ []) :
    get_crypto_signals (.error e) analyzeBody symbol
        = .errorString ("Error analyzing " ++ symbol ++ ": " ++ errMessage e) ∧
    get_crypto_signals (.ok ⟨[], vols, caps⟩) analyzeBody symbol
        = .errorDict "No price data returned." ∧
    (∀ msg, SignalsResult.errorDict msg ≠ .markdown (format_error_markdown msg)) ∧
    get_crypto_signals (.ok chart) analyzeBody symbol
        = (match analyzeBody chart with
          | .ok md => .markdown md
          | .error e₂ => .errorString ("Error analyzing " ++ symbol ++ ": " ++ errMessage e₂)) := by
  refine ⟨rfl, rfl, fun msg => by simp, ?_⟩
  cases hb : analyzeBody chart <;>
    simp [get_crypto_signals, hb, List.isEmpty_iff, hne]

/-- Witness for C9 at a one-point chart and a succeeding analysis body. -/
theorem get_crypto_signals_result_shapes_witness :
    (⟨[((0 : ℚ), 1)], [], []⟩ : MarketChart).prices ≠ [] ∧
      get_crypto_signals (.ok ⟨[((0 : ℚ), 1)], [], []⟩) (fun _ => .ok "MD") "bitcoin"
        = .markdown "MD" := by
  refine ⟨by simp, ?_⟩
  have h := (get_crypto_signals_result_shapes "bitcoin" (.runtime "timeout")
    (fun _ => .ok "MD") [] [] ⟨[((0 : ℚ), 1)], [], []⟩ (by simp)).2.2.2
  simpa using h

/-! Claim C4 -/

/-- C4 counterexample: retrieval for the first variant succeeded with a
document, retrieval for the second raised — the call returns the empty list
instead of degrading to the documents of the succeeded variant. -/
theorem grdwf_partial_failure_cex :
    fusionFailEnv.generate_query_variations "q" = .ok ["variant one", "variant two"] ∧
    (∃ retriever, fusionFailEnv.get_retriever = some retriever ∧
      retriever "variant one" = .ok [fusionFailDoc]) ∧
    get_relevant_documents_with_fusion fusionFailEnv "q" 3 = [] := by
  exact ⟨rfl, ⟨_, rfl, rfl⟩, rfl⟩

/-- C4 amended: any failure in variant generation, retriever construction or
any individual variant retrieval makes the whole call return the empty list
(never raising); only when every step succeeds is the fused, truncated result
returned. -/
theorem grdwf_all_or_nothing (env : RetrievalEnv) (query : String) (top_k : ℕ) :
    (∃ vars retriever rets,
        env.generate_query_variations query = .ok vars ∧
        env.get_retriever = some retriever ∧
        invokeAll retriever vars = .ok rets ∧
        get_relevant_documents_with_fusion env query top_k =
          (reciprocal_rank_fusion rets 60).take top_k) ∨
      get_relevant_documents_with_fusion env query top_k = [] := by
  cases hg : env.generate_query_variations query with
  | error e => right; simp [get_relevant_documents_with_fusion, hg]
  | ok vars =>
    cases hr : env.get_retriever with
    | none => right; simp [get_relevant_documents_with_fusion, hg, hr]
    | some retriever =>
      cases hm : invokeAll retriever vars with
      | error e =>
        right; simp [get_relevant_documents_with_fusion, hg, hr, hm]
      | ok rets =>
        left
        exact ⟨vars, retriever, rets, rfl, rfl, hm, by
          simp [get_relevant_documents_with_fusion, hg, hr, hm]⟩

/-! Claim C7 -/

/-- C7 counterexample: a success report with SMA50 unavailable (any series
shorter than 50 points) on which no rule fires carries an empty signal list —
no fallback signal is emitted. -/
theorem generate_signals_empty_when_sma50_nan :
    ruleSignals sma50NanSnapshot = [] ∧
    generate_signals sma50NanSnapshot = [] := by decide

/-- C7 amended: when no rule fires, the report carries exactly the fallback
block; with SMA20, SMA50, MACD and MACD-signal all available that is exactly
one signal — BULLISH_TREND (MEDIUM) when both comparisons point up,
BEARISH_TREND (MEDIUM) when both point down, else NEUTRAL (WEAK) — and with
any of the four unavailable the signal list is empty. -/
theorem generate_signals_fallback_cases (s : Snapshot) (h : ruleSignals s = []) :
    generate_signals s = fallbackSignals s ∧
    ((notna s.sma20 && notna s.sma50 && notna s.macd && notna s.macd_signal) = true →
      ∃ sig : Signal, fallbackSignals s = [sig] ∧ sig.indicator = "Combined Analysis" ∧
        ((sig.type = .BULLISH_TREND ∧ sig.strength = .MEDIUM ∧
            (XFloat.lt s.sma50 s.sma20 && XFloat.lt s.macd_signal s.macd) = true) ∨
         (sig.type = .BEARISH_TREND ∧ sig.strength = .MEDIUM ∧
            (XFloat.lt s.sma50 s.sma20 && XFloat.lt s.macd_signal s.macd) = false ∧
            (XFloat.lt s.sma20 s.sma50 && XFloat.lt s.macd s.macd_signal) = true) ∨
         (sig.type = .NEUTRAL ∧ sig.strength = .WEAK ∧
            (XFloat.lt s.sma50 s.sma20 && XFloat.lt s.macd_signal s.macd) = false ∧
            (XFloat.lt s.sma20 s.sma50 && XFloat.lt s.macd s.macd_signal) = false))) ∧
    ((notna s.sma20 && notna s.sma50 && notna s.macd && notna s.macd_signal) = false →
      generate_signals s = []) := by
  have hg : generate_signals s = fallbackSignals s := by
    simp [generate_signals, h]
  refine ⟨hg, ?_, ?_⟩
  · intro havail
    by_cases h₁ : (XFloat.lt s.sma50 s.sma20 && XFloat.lt s.macd_signal s.macd) = true
    · exact ⟨⟨.BULLISH_TREND, .MEDIUM, "Combined Analysis"⟩,
        by simp [fallbackSignals, havail, h₁], rfl, Or.inl ⟨rfl, rfl, h₁⟩⟩
    · have h₁f := Bool.eq_false_iff.mpr h₁
      by_cases h₂ : (XFloat.lt s.sma20 s.sma50 && XFloat.lt s.macd s.macd_signal) = true
      · exact ⟨⟨.BEARISH_TREND, .MEDIUM, "Combined Analysis"⟩,
          by simp [fallbackSignals, havail, h₁f, h₂], rfl, Or.inr (Or.inl ⟨rfl, rfl, h₁f, h₂⟩)⟩
      · have h₂f := Bool.eq_false_iff.mpr h₂
        exact ⟨⟨.NEUTRAL, .WEAK, "Combined Analysis"⟩,
          by simp [fallbackSignals, havail, h₁f, h₂f], rfl,
          Or.inr (Or.inr ⟨rfl, rfl, h₁f, h₂f⟩)⟩
  · intro havail
    rw [hg]
    simp [fallbackSignals, havail]

/-- Witness for C7 at a concrete snapshot with no rule firing and all four
fallback inputs available: exactly the NEUTRAL (WEAK) fallback is emitted. -/
theorem generate_signals_fallback_cases_witness :
    ruleSignals neutralSnapshot = [] ∧
      generate_signals neutralSnapshot = fallbackSignals neutralSnapshot ∧
      generate_signals neutralSnapshot = [⟨.NEUTRAL, .WEAK, "Combined Analysis"⟩] := by
  have h : ruleSignals neutralSnapshot = [] := by decide
  refine ⟨h, (generate_signals_fallback_cases neutralSnapshot h).1, ?_⟩
  rw [(generate_signals_fallback_cases neutralSnapshot h).1]
  decide

/-! Claim C1 -/

/-- C1: the terminal fallback itself raises.  With classification succeeding
and the tool-call dispatch raising, route_query propagates
TypeError("string indices must be integers") out of the except arm, because
the fallback hands the bare query string to process_direct_query, which
iterates it character-wise; and an exception inside classify_query — which
runs outside the try block — propagates untouched. -/
theorem route_query_terminal_fallback_raises :
    route_query routerFailEnv (.ofString "What is the price of bitcoin?")
        = .error (.typeError "string indices must be integers") ∧
    route_query { routerFailEnv with classify := fun _ => .error (.runtime "APIConnectionError") }
        (.ofString "What is the price of bitcoin?")
      = .error (.runtime "APIConnectionError") := ⟨rfl, rfl⟩

/-! Claim C6 -/

theorem length_diffs (ps : List ℚ) : (diffs ps).length = ps.length - 1 := by
  simp [diffs, List.length_zipWith]

theorem length_gains (ps : List ℚ) (h : ps ≠ []) : (gains ps).length = ps.length := by
  have hn := List.length_pos.mpr h
  simp [gains, h, length_diffs]
  omega

theorem length_losses (ps : List ℚ) (h : ps ≠ []) : (losses ps).length = ps.length := by
  have hn := List.length_pos.mpr h
  simp [losses, h, length_diffs]
  omega

theorem calculate_rsi_getLast (ps : List ℚ) (period : ℕ) (h : ps ≠ []) :
    (calculate_rsi ps period).getLast? = some (rsiAt ps period (ps.length - 1)) := by
  have hn := List.length_pos.mpr h
  unfold calculate_rsi
  rw [List.getLast?_eq_getElem?]
  simp only [List.length_map, List.length_range, List.getElem?_map]
  rw [List.getElem?_range (by omega)]
  rfl

/-- The window of the last 14 gains is, as a sum, the positive parts of the
deltas from position `length - 15` on (for a 14-point series this includes the
phantom leading zero, which contributes nothing). -/
theorem gains_window_sum (ps : List ℚ) (hne : ps ≠ []) (h14 : 14 ≤ ps.length) :
    ((gains ps).drop (ps.length - 14)).sum
      = (((diffs ps).drop (ps.length - 15)).map (fun d => if 0 < d then d else 0)).sum := by
  unfold gains
  rw [if_neg hne]
  rcases Nat.lt_or_ge ps.length 15 with h15 | h15
  · have hz : ps.length - 14 = 0 := by omega
    have hz' : ps.length - 15 = 0 := by omega
    rw [hz, hz']
    simp
  · have hsplit : ps.length - 14 = (ps.length - 15) + 1 := by omega
    rw [hsplit, List.drop_succ_cons, ← List.map_drop]

theorem losses_window_sum (ps : List ℚ) (hne : ps ≠ []) (h14 : 14 ≤ ps.length) :
    ((losses ps).drop (ps.length - 14)).sum
      = (((diffs ps).drop (ps.length - 15)).map (fun d => if d < 0 then -d else 0)).sum := by
  unfold losses
  rw [if_neg hne]
  rcases Nat.lt_or_ge ps.length 15 with h15 | h15
  · have hz : ps.length - 14 = 0 := by omega
    have hz' : ps.length - 15 = 0 := by omega
    rw [hz, hz']
    simp
  · have hsplit : ps.length - 14 = (ps.length - 15) + 1 := by omega
    rw [hsplit, List.drop_succ_cons, ← List.map_drop]

/-- The RSI formula applied to a positive average gain and a zero average
loss: the division yields an infinity and the formula collapses to exactly
100. -/
theorem rsi_of_pos_gain_zero_loss (q : ℚ) (hq : 0 < q) :
    (XFloat.val 100).sub ((XFloat.val 100).div ((XFloat.val 1).add
      ((XFloat.val q).div (XFloat.val 0)))) = XFloat.val 100 := by
  have h1 : (XFloat.val q).div (XFloat.val 0) = XFloat.inf := by
    simp [XFloat.div, hq, hq.ne']
  rw [h1]
  show (XFloat.val 100).sub ((XFloat.val 100).div ((XFloat.val 1).add XFloat.inf))
      = XFloat.val 100
  have h2 : (XFloat.val 1).add XFloat.inf = XFloat.inf := rfl
  rw [h2]
  show (XFloat.val 100).sub (XFloat.val 0) = XFloat.val 100
  simp [XFloat.sub, XFloat.add, XFloat.neg]

/-- The RSI formula applied to zero average gain and zero average loss:
0/0 is NaN and it propagates. -/
theorem rsi_of_zero_gain_zero_loss :
    (XFloat.val 100).sub ((XFloat.val 100).div ((XFloat.val 1).add
      ((XFloat.val 0).div (XFloat.val 0)))) = XFloat.nan := by
  simp [XFloat.div, XFloat.add, XFloat.sub, XFloat.neg]

/-- C6 amended: over a lookback window that is non-decreasing with at least
one strict increase (average loss 0, average gain positive), the RSI at the
latest point is exactly 100 — the positive-over-zero division produces an
infinity whose arithmetic collapses to 100, with no NaN.  (An entirely
constant window instead yields 0/0 = NaN; see the counterexample.) -/
theorem calculate_rsi_avg_loss_zero_gain_pos (ps : List ℚ) (h14 : 14 ≤ ps.length)
    (hnn : ∀ d ∈ (diffs ps).drop (ps.length - 15), 0 ≤ d)
    (hpos : ∃ d ∈ (diffs ps).drop (ps.length - 15), 0 < d) :
    (calculate_rsi ps 14).getLast? = some (XFloat.val 100) := by
  have hne : ps ≠ [] := by
    intro he
    rw [he] at h14
    simp at h14
  rw [calculate_rsi_getLast ps 14 hne]
  refine congrArg some ?_
  have hn1 : ps.length - 1 + 1 = ps.length := by omega
  have hnotlt : ¬ (ps.length - 1 + 1 < 14) := by omega
  have htg : (gains ps).take (ps.length - 1 + 1) = gains ps := by
    rw [hn1, ← length_gains ps hne]
    exact List.take_length _
  have htl : (losses ps).take (ps.length - 1 + 1) = losses ps := by
    rw [hn1, ← length_losses ps hne]
    exact List.take_length _
  have hl0 : (((diffs ps).drop (ps.length - 15)).map (fun d => if d < 0 then -d else 0)).sum
      = 0 := by
    apply List.sum_eq_zero
    intro x hx
    obtain ⟨d, hd, rfl⟩ := List.mem_map.mp hx
    rw [if_neg (not_lt.mpr (hnn d hd))]
  have hgpos :
      0 < (((diffs ps).drop (ps.length - 15)).map (fun d => if 0 < d then d else 0)).sum := by
    obtain ⟨d, hd, hdpos⟩ := hpos
    have hmem : (if 0 < d then d else 0) ∈ ((diffs ps).drop (ps.length - 15)).map
        (fun d => if 0 < d then d else 0) := List.mem_map_of_mem _ hd
    rw [if_pos hdpos] at hmem
    have hle := List.single_le_sum (l := ((diffs ps).drop (ps.length - 15)).map
      (fun d => if 0 < d then d else 0)) ?_ d hmem
    · linarith
    · intro x hx
      obtain ⟨d', _, rfl⟩ := List.mem_map.mp hx
      by_cases hd' : 0 < d'
      · rw [if_pos hd']; exact le_of_lt hd'
      · rw [if_neg hd']
  unfold rsiAt avgGainAt avgLossAt rollingMeanAt
  rw [if_neg hnotlt, if_neg hnotlt, htg, htl, hn1]
  rw [gains_window_sum ps hne h14, losses_window_sum ps hne h14, hl0, zero_div]
  have hq : 0 < (((diffs ps).drop (ps.length - 15)).map
      (fun d => if 0 < d then d else 0)).sum / (14 : ℚ) := by positivity
  exact rsi_of_pos_gain_zero_loss _ hq

/-- Witness for C6 (amended) at a strictly increasing 15-point series. -/
theorem calculate_rsi_avg_loss_zero_gain_pos_witness :
    14 ≤ ([(1 : ℚ), 2, 3, 4, 5, 6, 7, 8, 9, 10, 11, 12, 13, 14, 15] : List ℚ).length ∧
    (calculate_rsi [(1 : ℚ), 2, 3, 4, 5, 6, 7, 8, 9, 10, 11, 12, 13, 14, 15] 14).getLast?
      = some (XFloat.val 100) := by
  constructor
  · simp
  · apply calculate_rsi_avg_loss_zero_gain_pos
    · simp
    · intro d hd
      simp [diffs] at hd
      norm_num at hd
      rw [hd]
      norm_num
    · refine ⟨1, ?_, by norm_num⟩
      simp [diffs]
      norm_num

/-- C6 counterexample: a constant 14-point series is monotonically
non-decreasing (average loss 0), yet the RSI at the latest point is NaN
(average gain is also 0 and 0/0 is NaN), not 100. -/
theorem calculate_rsi_constant_series_nan :
    (∀ d ∈ diffs (List.replicate 14 (100 : ℚ)), 0 ≤ d) ∧
    (calculate_rsi (List.replicate 14 (100 : ℚ)) 14).getLast? = some XFloat.nan ∧
    XFloat.nan ≠ XFloat.val 100 := by
  have hdiffs : diffs (List.replicate 14 (100 : ℚ)) = List.replicate 13 0 := by
    simp [diffs, List.tail_replicate, List.zipWith_replicate]
  refine ⟨?_, ?_, by decide⟩
  · intro d hd
    rw [hdiffs] at hd
    rw [List.eq_of_mem_replicate hd]
  · rw [calculate_rsi_getLast _ _ (by simp)]
    refine congrArg some ?_
    unfold rsiAt avgGainAt avgLossAt rollingMeanAt
    have hlen : (List.replicate 14 (100 : ℚ)).length = 14 := by simp
    rw [hlen]
    norm_num
    unfold gains losses
    rw [if_neg (by simp), if_neg (by simp), hdiffs]
    simp [XFloat.div, XFloat.add, XFloat.sub, XFloat.neg, List.sum_replicate]

/-! Claims C2 and C3: reciprocal rank fusion -/

theorem updateScore_map_fst (sc : List (String × ℚ)) (key : String) (v : ℚ) :
    (updateScore sc key v).map Prod.fst =
      if key ∈ sc.map Prod.fst then sc.map Prod.fst else sc.map Prod.fst ++ [key] := by
  induction sc with
  | nil => simp [updateScore]
  | cons p rest ih =>
    obtain ⟨k₀, s⟩ := p
    by_cases h : k₀ = key
    · subst h
      simp [updateScore]
    · simp only [updateScore, if_neg h, List.map_cons]
      rw [ih]
      by_cases hmem : key ∈ rest.map Prod.fst
      · simp [hmem, Ne.symm h]
      · simp [hmem, Ne.symm h]

theorem mem_updateScore_map_fst {sc : List (String × ℚ)} {key c : String} {v : ℚ} :
    c ∈ (updateScore sc key v).map Prod.fst ↔ c ∈ sc.map Prod.fst ∨ c = key := by
  rw [updateScore_map_fst]
  by_cases hmem : key ∈ sc.map Prod.fst
  · simp only [hmem, if_true]
    constructor
    · exact Or.inl
    · rintro (h | rfl)
      · exact h
      · exact hmem
  · simp [hmem]

theorem nodup_updateScore (sc : List (String × ℚ)) (key : String) (v : ℚ)
    (h : (sc.map Prod.fst).Nodup) : ((updateScore sc key v).map Prod.fst).Nodup := by
  rw [updateScore_map_fst]
  by_cases hmem : key ∈ sc.map Prod.fst
  · simpa [hmem]
  · simpa [hmem, List.nodup_append] using h

theorem lookupScore_updateScore (sc : List (String × ℚ)) (key : String) (v : ℚ)
    (c : String) :
    lookupScore (updateScore sc key v) c = lookupScore sc c + (if key = c then v else 0) := by
  induction sc with
  | nil =>
    by_cases h : key = c <;> simp [updateScore, lookupScore, h]
  | cons p rest ih =>
    obtain ⟨k₀, s⟩ := p
    by_cases h : k₀ = key
    · subst h
      by_cases hc : k₀ = c <;> simp [updateScore, lookupScore, hc] <;> ring
    · simp only [updateScore, if_neg h, lookupScore, List.map_cons, List.sum_cons]
      have := ih
      unfold lookupScore at this
      rw [this]
      ring

/-- Accumulating one enumerated result list shifts every key score by the
occurrence sum of that list. -/
theorem lookupScore_foldl (k : ℕ) (l : List (ℕ × Document)) (sc : List (String × ℚ))
    (c : String) :
    lookupScore (l.foldl (fun sc rd =>
        updateScore sc rd.2.page_content (1 / ((rd.1 : ℚ) + (k : ℚ)))) sc) c
      = lookupScore sc c
        + (l.map (fun rd =>
            if rd.2.page_content = c then 1 / ((rd.1 : ℚ) + (k : ℚ)) else 0)).sum := by
  induction l generalizing sc with
  | nil => simp
  | cons rd t ih =>
    simp only [List.foldl_cons, List.map_cons, List.sum_cons]
    rw [ih, lookupScore_updateScore]
    ring

theorem mem_foldl_map_fst (k : ℕ) (l : List (ℕ × Document)) (sc : List (String × ℚ))
    (c : String) :
    c ∈ ((l.foldl (fun sc rd =>
        updateScore sc rd.2.page_content (1 / ((rd.1 : ℚ) + (k : ℚ)))) sc).map Prod.fst)
      ↔ c ∈ sc.map Prod.fst ∨ c ∈ l.map (fun rd => rd.2.page_content) := by
  induction l generalizing sc with
  | nil => simp
  | cons rd t ih =>
    simp only [List.foldl_cons, List.map_cons, List.mem_cons]
    rw [ih, mem_updateScore_map_fst]
    tauto

theorem nodup_foldl_map_fst (k : ℕ) (l : List (ℕ × Document)) (sc : List (String × ℚ))
    (h : (sc.map Prod.fst).Nodup) :
    ((l.foldl (fun sc rd =>
        updateScore sc rd.2.page_content (1 / ((rd.1 : ℚ) + (k : ℚ)))) sc).map Prod.fst).Nodup := by
  induction l generalizing sc with
  | nil => exact h
  | cons rd t ih => exact ih _ (nodup_updateScore _ _ _ h)

theorem lookupScore_foldl_lists (k : ℕ) (ll : List (List Document))
    (sc : List (String × ℚ)) (c : String) :
    lookupScore (ll.foldl (addListScores k) sc) c
      = lookupScore sc c
        + (ll.map (fun results => (results.enum.map (fun rd =>
            if rd.2.page_content = c then 1 / ((rd.1 : ℚ) + (k : ℚ)) else 0)).sum)).sum := by
  induction ll generalizing sc with
  | nil => simp
  | cons results t ih =>
    simp only [List.foldl_cons, List.map_cons, List.sum_cons]
    rw [ih, addListScores, lookupScore_foldl]
    ring

/-- The association-list score of every content string equals its cumulative
RRF score. -/
theorem lookupScore_docScores (ll : List (List Document)) (k : ℕ) (c : String) :
    lookupScore (docScores ll k) c = rrfScore ll k c := by
  unfold docScores rrfScore
  rw [lookupScore_foldl_lists]
  simp [lookupScore]

theorem enum_map_content (results : List Document) :
    results.enum.map (fun rd => rd.2.page_content)
      = results.map Document.page_content := by
  have h : results.enum.map (fun rd => rd.2.page_content)
      = (results.enum.map Prod.snd).map Document.page_content := by
    rw [List.map_map]
    rfl
  rw [h, List.enum_map_snd]

theorem mem_docScores_map_fst (ll : List (List Document)) (k : ℕ) (c : String) :
    c ∈ (docScores ll k).map Prod.fst ↔ c ∈ allContents ll := by
  unfold docScores
  have main : ∀ (ll : List (List Document)) (sc : List (String × ℚ)),
      c ∈ ((ll.foldl (addListScores k) sc).map Prod.fst)
        ↔ c ∈ sc.map Prod.fst ∨ c ∈ allContents ll := by
    intro ll
    induction ll with
    | nil => simp [allContents]
    | cons results t ih =>
      intro sc
      simp only [List.foldl_cons, addListScores]
      rw [ih, mem_foldl_map_fst, enum_map_content]
      simp only [allContents, List.flatten_cons, List.map_append, List.mem_append]
      tauto
  rw [main ll []]
  simp

theorem nodup_docScores_map_fst (ll : List (List Document)) (k : ℕ) :
    ((docScores ll k).map Prod.fst).Nodup := by
  unfold docScores
  have main : ∀ (ll : List (List Document)) (sc : List (String × ℚ)),
      (sc.map Prod.fst).Nodup → ((ll.foldl (addListScores k) sc).map Prod.fst).Nodup := by
    intro ll
    induction ll with
    | nil => exact fun sc h => h
    | cons results t ih =>
      intro sc h
      exact ih _ (nodup_foldl_map_fst _ _ _ h)
  exact main ll [] (by simp)

theorem lookupScore_eq_zero (sc : List (String × ℚ)) (c : String)
    (h : c ∉ sc.map Prod.fst) : lookupScore sc c = 0 := by
  induction sc with
  | nil => rfl
  | cons p rest ih =>
    rw [List.map_cons, List.mem_cons, not_or] at h
    simp only [lookupScore, List.map_cons, List.sum_cons]
    rw [if_neg (fun hc => h.1 hc.symm)]
    have hz := ih h.2
    unfold lookupScore at hz
    rw [hz]
    ring

/-- With no duplicate keys, the association list stores exactly the lookup
score of each entry. -/
theorem lookupScore_entry (sc : List (String × ℚ))
    (h : (sc.map Prod.fst).Nodup) : ∀ p ∈ sc, lookupScore sc p.1 = p.2 := by
  induction sc with
  | nil => intro p hp; cases hp
  | cons q rest ih =>
    intro p hp
    rw [List.map_cons, List.nodup_cons] at h
    rcases List.mem_cons.mp hp with rfl | hp'
    · simp only [lookupScore, List.map_cons, List.sum_cons]
      have hz := lookupScore_eq_zero rest p.1 h.1
      unfold lookupScore at hz
      rw [hz]
      simp
    · have hne : q.1 ≠ p.1 := fun he => h.1 (he ▸ List.mem_map_of_mem Prod.fst hp')
      have hrest := ih h.2 p hp'
      unfold lookupScore at hrest ⊢
      simp only [List.map_cons, List.sum_cons]
      rw [if_neg hne, hrest]
      ring

theorem content_to_doc_of_mem (ll : List (List Document)) (c : String)
    (h : c ∈ allContents ll) :
    ∃ d, content_to_doc ll c = some d ∧ d.page_content = c := by
  unfold content_to_doc
  obtain ⟨d, hd, hdc⟩ := List.mem_map.mp h
  have hsome : (ll.flatten.reverse.find? (fun d => d.page_content = c)).isSome :=
    List.find?_isSome.mpr ⟨d, List.mem_reverse.mpr hd, by simp [hdc]⟩
  obtain ⟨d', hd'⟩ := Option.isSome_iff_exists.mp hsome
  refine ⟨d', hd', ?_⟩
  simpa using List.find?_some hd'

theorem filterMap_content_map (ll : List (List Document)) (l : List (ℚ × String))
    (h : ∀ p ∈ l, p.2 ∈ allContents ll) :
    (l.filterMap (fun p => content_to_doc ll p.2)).map Document.page_content
      = l.map Prod.snd := by
  induction l with
  | nil => rfl
  | cons p t ih =>
    obtain ⟨d, hd, hdc⟩ := content_to_doc_of_mem ll p.2 (h p (List.mem_cons_self _ _))
    rw [List.filterMap_cons, hd]
    simp only [List.map_cons, hdc]
    rw [ih (fun q hq => h q (List.mem_cons_of_mem _ hq))]

/-- The contents of the fused output are exactly the sorted score keys. -/
theorem rrf_map_content (ll : List (List Document)) (k : ℕ) :
    (reciprocal_rank_fusion ll k).map Document.page_content
      = (List.insertionSort rrfSortRel
          ((docScores ll k).map (fun p => (p.2, p.1)))).map Prod.snd := by
  unfold reciprocal_rank_fusion
  apply filterMap_content_map
  intro p hp
  have hp' : p ∈ (docScores ll k).map (fun p => (p.2, p.1)) :=
    (List.mem_insertionSort rrfSortRel).mp hp
  obtain ⟨q, hq, rfl⟩ := List.mem_map.mp hp'
  exact (mem_docScores_map_fst ll k _).mp (List.mem_map_of_mem Prod.fst hq)

theorem sorted_map_snd_perm (ll : List (List Document)) (k : ℕ) :
    List.Perm
      ((List.insertionSort rrfSortRel
        ((docScores ll k).map (fun p => (p.2, p.1)))).map Prod.snd)
      ((docScores ll k).map Prod.fst) := by
  have hperm :=
    (List.perm_insertionSort rrfSortRel
      ((docScores ll k).map (fun p => (p.2, p.1)))).map Prod.snd
  refine hperm.trans ?_
  rw [List.map_map]
  have he : (Prod.snd ∘ fun p : String × ℚ => (p.2, p.1)) = Prod.fst := rfl
  rw [he]

/-- C3: every document content appearing in any input list appears exactly
once in the fused output — the output contents are duplicate-free and their
membership coincides with the input contents. -/
theorem rrf_completeness (ll : List (List Document)) (k : ℕ) :
    ((reciprocal_rank_fusion ll k).map Document.page_content).Nodup ∧
    ∀ c, c ∈ (reciprocal_rank_fusion ll k).map Document.page_content
      ↔ c ∈ allContents ll := by
  have hmap := rrf_map_content ll k
  have hperm := sorted_map_snd_perm ll k
  constructor
  · rw [hmap]
    exact hperm.nodup_iff.mpr (nodup_docScores_map_fst ll k)
  · intro c
    rw [hmap, hperm.mem_iff, mem_docScores_map_fst]

/-- C2 counterexample: two documents at rank 0 of separate lists have equal
cumulative scores; "alpha" is seen first, yet "beta" — the lexicographically
greater content — is ranked first, because `sort(reverse=True)` on
`(score, key)` tuples breaks score ties by descending key string, not by
first-seen order. -/
theorem rrf_first_seen_tiebreak_cex :
    rrfScore [[tieDocA], [tieDocB]] 60 tieDocA.page_content
        = rrfScore [[tieDocA], [tieDocB]] 60 tieDocB.page_content ∧
    firstSeenIndex [[tieDocA], [tieDocB]] tieDocA.page_content
        < firstSeenIndex [[tieDocA], [tieDocB]] tieDocB.page_content ∧
    reciprocal_rank_fusion [[tieDocA], [tieDocB]] 60 = [tieDocB, tieDocA] := by
  refine ⟨by simp [rrfScore, tieDocA, tieDocB], ?_, ?_⟩
  · simp [firstSeenIndex, allContents, tieDocA, tieDocB]
  · simp [reciprocal_rank_fusion, docScores, addListScores, updateScore, tieDocA,
      tieDocB, content_to_doc, rrfSortRel, pyStrLt, pyLtChars]

/-- C2 amended: the fused output is deterministic (a pure function of its
input) and ordered by strictly descending cumulative RRF score with score
ties broken by descending content string (code-point lexicographic), not by
first-seen order. -/
theorem rrf_sorted_desc_score_then_content (ll : List (List Document)) (k : ℕ) :
    (reciprocal_rank_fusion ll k).Pairwise (fun d₁ d₂ =>
      rrfScore ll k d₂.page_content < rrfScore ll k d₁.page_content ∨
      (rrfScore ll k d₁.page_content = rrfScore ll k d₂.page_content ∧
        pyStrLt d₂.page_content d₁.page_content = true)) := by
  have hP : ((reciprocal_rank_fusion ll k).map Document.page_content).Pairwise
      (fun c₁ c₂ => rrfScore ll k c₂ < rrfScore ll k c₁ ∨
        (rrfScore ll k c₁ = rrfScore ll k c₂ ∧ pyStrLt c₂ c₁ = true)) := by
    rw [rrf_map_content ll k, List.pairwise_map]
    have hsorted : (List.insertionSort rrfSortRel
        ((docScores ll k).map (fun p => (p.2, p.1)))).Pairwise rrfSortRel :=
      List.sorted_insertionSort rrfSortRel _
    have hnodup_snd : (List.insertionSort rrfSortRel
        ((docScores ll k).map (fun p => (p.2, p.1)))).Pairwise
          (fun p q => p.2 ≠ q.2) := by
      have hnd : ((List.insertionSort rrfSortRel
          ((docScores ll k).map (fun p => (p.2, p.1)))).map Prod.snd).Nodup :=
        (sorted_map_snd_perm ll k).nodup_iff.mpr (nodup_docScores_map_fst ll k)
      unfold List.Nodup at hnd
      exact List.pairwise_map.mp hnd
    have hval : ∀ p ∈ List.insertionSort rrfSortRel
        ((docScores ll k).map (fun p => (p.2, p.1))), p.1 = rrfScore ll k p.2 := by
      intro p hp
      have hp' : p ∈ (docScores ll k).map (fun p => (p.2, p.1)) :=
        (List.mem_insertionSort rrfSortRel).mp hp
      obtain ⟨q, hq, rfl⟩ := List.mem_map.mp hp'
      show q.2 = rrfScore ll k q.1
      rw [← lookupScore_docScores ll k q.1]
      exact (lookupScore_entry _ (nodup_docScores_map_fst ll k) q hq).symm
    refine (hsorted.and hnodup_snd).imp_of_mem ?_
    intro a b ha hb hab
    obtain ⟨hr, hne⟩ := hab
    rcases hr with hlt | ⟨heq, hfalse⟩
    · left
      rw [← hval a ha, ← hval b hb]
      exact hlt
    · right
      refine ⟨by rw [← hval a ha, ← hval b hb]; exact heq.symm, ?_⟩
      cases hq : pyStrLt b.2 a.2 with
      | true => rfl
      | false =>
        have hdata : a.2.data = b.2.data := pyLtChars_connex hfalse hq
        exact absurd (String.ext hdata) hne
  rw [List.pairwise_map] at hP
  exact hP

end Sprint2
